import Mathlib

/-
Verification of the MITRE ingestion/projection/retrieval engine.

Shallow embedding of the backend's core modules:
  - app/schemas/mitre.py      (entity model)
  - app/services/embeddings.py (name+description text builder)
  - app/db/mongo.py           (document store: bundle-by-version storage,
                               current-version pointer, latest-entities cache)
  - app/db/neo4j.py           (graph projection: nodes, typed edges,
                               adjacency query)
  - app/api/search.py         (hybrid merge of text and vector hits)
  - app/api/graph.py          (adjacency endpoint)

Conventions: async functions become pure state-passing functions; a raised
exception becomes an `Except` error value carrying the mutated-so-far state
(Python exceptions propagate while keeping side effects already performed);
the external embedding provider is a function parameter `ef`; graph-store
availability is an explicit boolean (the Neo4j driver global being `None`
models an unreachable backend).
-/

namespace MitreAttack

/-! ### Entity model (app/schemas/mitre.py)

`MitreObject` keeps the fields the core operations read: `id`, `type`,
`name`, `description`, the relationship fields, and the projected
`x_mitre_shortname`.  The remaining optional STIX attributes (timestamps,
external references, platform lists, ...) are carried opaquely by the real
model and never branched on by the ingestion, graph-sync, or retrieval code,
so they are omitted from the embedding. -/

structure MitreObject where
  type : String
  id : String
  name : Option String := none
  description : Option String := none
  x_mitre_shortname : Option String := none
  relationship_type : Option String := none
  source_ref : Option String := none
  target_ref : Option String := none
deriving Repr, DecidableEq

/-- `MitreBundle` (the `type` field is the literal `"bundle"` and is dropped). -/
structure MitreBundle where
  id : Option String := none
  spec_version : String
  objects : List MitreObject
deriving Repr, DecidableEq

structure MitreMetadata where
  x_mitre_version : String
  last_modified : String
  size : Nat
  type : String := "application/json"
deriving Repr, DecidableEq

/-! ### Embedding text builder (app/services/embeddings.py) -/

/-- Python `str.strip()`: drop whitespace from both ends (an executable
equivalent of `String.trim`). -/
def pyStrip (s : String) : String :=
  ⟨((s.data.dropWhile Char.isWhitespace).reverse.dropWhile Char.isWhitespace).reverse⟩

/-- `_name_description_text(name, description)`: combined text for
name+description; `none` if both are empty after stripping. -/
def _name_description_text (name description : Option String) : Option String :=
  let n := pyStrip (name.getD "")
  let d := pyStrip (description.getD "")
  if n ≠ "" ∧ d ≠ "" then some ("name: " ++ n ++ ". description: " ++ d)
  else if n ≠ "" then some n
  else if d ≠ "" then some d
  else none

/-! ### Latest-entities cache documents (app/db/mongo.py) -/

/-- One document of the `mitre_entities` collection: `_id` is the entity id,
the entity's own fields are inlined, and `embedding` is set exactly for the
documents whose combined name+description text is non-null. -/
structure EntityDoc where
  mid : String
  obj : MitreObject
  embedding : Option (List Int) := none
deriving Repr, DecidableEq

/-- Loop body of `_entity_docs_with_embeddings`: the doc for one object.
`ef` is the external embedding provider (`embed_texts_batch` assigns
`ef text` to each collected doc in order, which is what the per-object
form below computes). -/
def entityDocOf (ef : String → List Int) (obj : MitreObject) : EntityDoc :=
  match _name_description_text obj.name obj.description with
  | some t => { mid := obj.id, obj := obj, embedding := some (ef t) }
  | none => { mid := obj.id, obj := obj, embedding := none }

/-- `_entity_docs_with_embeddings(content)`: one doc per object of the
bundle, in bundle order, each with `_id = obj.id` and an `embedding` field
for the objects whose name or description is non-empty. -/
def _entity_docs_with_embeddings (ef : String → List Int) (content : MitreBundle) :
    List EntityDoc :=
  content.objects.map (entityDocOf ef)

/-! ### Graph projection (app/db/neo4j.py) -/

structure GraphNode where
  label : String
  stix_id : String
deriving Repr, DecidableEq

structure GraphEdge where
  source : String
  target : String
  relType : String
  stix_id : String
deriving Repr, DecidableEq

/-- The Neo4j database contents relevant to the MITRE graph: `MitreEntity`
nodes and the edges between them. -/
structure GraphState where
  nodes : List GraphNode
  edges : List GraphEdge
deriving Repr, DecidableEq

/-- `str.upper()` (an executable equivalent of `String.toUpper`). -/
def strUpper (s : String) : String :=
  ⟨s.data.map Char.toUpper⟩

/-- `str.replace(old, new)` for a one-character pattern (the only patterns
the source uses: `-`, space), as an executable equivalent of
`String.replace`. -/
def replaceChar (old new : Char) (s : String) : String :=
  ⟨s.data.map (fun c => if c = old then new else c)⟩

/-- Split on a separator character (executable equivalent of
`String.splitOn` for the one-character separator the source uses). -/
def splitOnChar (sep : Char) : List Char → List Char → List (List Char)
  | [], acc => [acc.reverse]
  | c :: rest, acc =>
    if c = sep then acc.reverse :: splitOnChar sep rest []
    else splitOnChar sep rest (c :: acc)

/-- `str.capitalize()`: first character uppercased, the rest lowercased. -/
def pyCapitalize (s : String) : String :=
  match s.data with
  | [] => ""
  | c :: rest => ⟨c.toUpper :: rest.map Char.toLower⟩

/-- `_stix_type_to_label`: STIX type to PascalCase Neo4j label
(`'attack-pattern' -> 'AttackPattern'`). -/
def _stix_type_to_label (stix_type : String) : String :=
  if stix_type = "" then "StixObject"
  else
    let parts := (splitOnChar ' ' (replaceChar '-' ' ' stix_type).data []).filter
      (fun p => p ≠ [])
    String.join (parts.map (fun p => pyCapitalize ⟨p⟩))

/-- `_relationship_type_to_neo4j`: STIX relationship_type to UPPER_SNAKE. -/
def _relationship_type_to_neo4j (rel_type : String) : String :=
  if rel_type = "" then "RELATED_TO"
  else replaceChar '-' '_' (strUpper rel_type)

/-- `_create_node`: `MERGE` on `(labels, stix_id)` — creates the node unless
one with the same stix_id and label already exists. -/
def _create_node (g : GraphState) (label : String) (sid : String) : GraphState :=
  if g.nodes.any (fun n => n.stix_id = sid ∧ n.label = label) then g
  else { g with nodes := g.nodes ++ [{ label := label, stix_id := sid }] }

/-- `_create_relationship`: the Cypher `MATCH (a),(b) ... CREATE` creates an
edge only when both endpoint nodes exist; the edge type is the
space-sanitized `rel_type`. -/
def _create_relationship (g : GraphState) (source_ref target_ref rel_type rel_id : String) :
    GraphState :=
  let safe_type := replaceChar ' ' '_' rel_type
  if (g.nodes.any (fun n => n.stix_id = source_ref)) ∧
      (g.nodes.any (fun n => n.stix_id = target_ref)) then
    { g with edges := g.edges ++
        [{ source := source_ref, target := target_ref, relType := safe_type, stix_id := rel_id }] }
  else g

/-- Body of the relationship loop of `store_mitre_bundle`: skip when any of
source_ref/target_ref/relationship_type is falsy or when either ref is not a
key of `by_id`, else create the edge with the normalized type. -/
def relStep (by_id : List String) (g : GraphState) (rel : MitreObject) : GraphState :=
  let src := rel.source_ref.getD ""
  let tgt := rel.target_ref.getD ""
  let rt := rel.relationship_type.getD ""
  if src = "" ∨ tgt = "" ∨ rt = "" then g
  else if src ∈ by_id ∧ tgt ∈ by_id then
    _create_relationship g src tgt (_relationship_type_to_neo4j rt) rel.id
  else g

/-- `store_mitre_bundle(content)`: when the driver is available, clear the
MITRE graph, create one node per non-relationship object, then create edges
for the relationship objects that pass the guards.  With the driver `None`
(`avail = false`) the sync is skipped and the graph is untouched. -/
def store_mitre_bundle (avail : Bool) (g : GraphState) (content : MitreBundle) : GraphState :=
  if avail = false then g
  else
    let by_id := content.objects.map (fun o => o.id)
    let nodeObjs := content.objects.filter (fun o => o.type ≠ "relationship")
    let rels := content.objects.filter (fun o => o.type = "relationship")
    let cleared : GraphState := { nodes := [], edges := [] }
    let withNodes := nodeObjs.foldl
      (fun acc o => _create_node acc (_stix_type_to_label o.type) o.id) cleared
    rels.foldl (relStep by_id) withNodes

/-- One element of the `adjacent` list returned by `get_adjacent`. -/
structure AdjEntry where
  relType : String
  rel_stix_id : String
  direction : String
  neighbor : GraphNode
deriving Repr, DecidableEq

structure Adjacency where
  node : GraphNode
  adjacent : List AdjEntry
deriving Repr, DecidableEq

/-- Row produced by one edge of the undirected `OPTIONAL MATCH (n)-[r]-(other)`
with `WHERE other.stix_id <> n.stix_id`: direction is `"outgoing"` when the
center is the edge's start node. -/
def edgeEntry (g : GraphState) (sid : String) (e : GraphEdge) : Option AdjEntry :=
  if e.source = sid ∧ e.target ≠ sid then
    (g.nodes.find? (fun n => n.stix_id = e.target)).map
      (fun nb => { relType := e.relType, rel_stix_id := e.stix_id,
                   direction := "outgoing", neighbor := nb })
  else if e.target = sid ∧ e.source ≠ sid then
    (g.nodes.find? (fun n => n.stix_id = e.source)).map
      (fun nb => { relType := e.relType, rel_stix_id := e.stix_id,
                   direction := "incoming", neighbor := nb })
  else none

/-- `get_adjacent(stix_id)`: `None` when the driver is unavailable, and
`None` when no node with the given stix_id exists (no rows from the MATCH);
otherwise the center node and its adjacency rows. -/
def get_adjacent (avail : Bool) (g : GraphState) (sid : String) : Option Adjacency :=
  if avail = false then none
  else
    match g.nodes.find? (fun n => n.stix_id = sid) with
    | none => none
    | some c => some { node := c, adjacent := g.edges.filterMap (edgeEntry g sid) }

/-- `get_adjacent_endpoint` (app/api/graph.py): a `None` result — node
missing or Neo4j unavailable — becomes HTTP 404. -/
def get_adjacent_endpoint (avail : Bool) (g : GraphState) (sid : String) :
    Except Nat Adjacency :=
  match get_adjacent avail g sid with
  | none => Except.error 404
  | some r => Except.ok r

/-! ### Document store (app/db/mongo.py) -/

/-- One document of the `mitre_documents` collection (`_id` is the version
key, kept as the association-list key). -/
structure StoredDoc where
  metadata : MitreMetadata
  spec_version : String
  bundle_id : Option String
  objects : List MitreObject
deriving Repr, DecidableEq

def mkStoredDoc (content : MitreBundle) (metadata : MitreMetadata) : StoredDoc :=
  { metadata := metadata, spec_version := content.spec_version,
    bundle_id := content.id, objects := content.objects }

/-- The whole MongoDB + Neo4j state: the three collections of mongo.py plus
the graph projection. -/
structure StoreState where
  documents : List (String × StoredDoc)
  entities : List EntityDoc
  current : Option String
  graph : GraphState
deriving Repr, DecidableEq

/-- Error taxonomy of mongo.py: `DuplicateVersionError` distinct from the
generic `MitreDBError`. -/
inductive MitreErr where
  | duplicateVersion
  | dbError
deriving Repr, DecidableEq

/-- `replace_one(.., upsert=True)` on `mitre_documents`: replace the document
under the key if present (`_id` is unique, so at most one match), else
insert. -/
def upsertDoc : List (String × StoredDoc) → String → StoredDoc → List (String × StoredDoc)
  | [], v, d => [(v, d)]
  | p :: rest, v, d => if p.1 = v then (v, d) :: rest else p :: upsertDoc rest v d

def lookupDoc (docs : List (String × StoredDoc)) (v : String) : Option StoredDoc :=
  (docs.find? (fun p => p.1 = v)).map (fun p => p.2)

/-- `insert_many` on `mitre_entities` (`_id = entity id`): ordered insert
that stops at the first duplicate `_id`; on failure the error carries the
collection contents at the point of the raise. -/
def insertManyEntities : List EntityDoc → List EntityDoc → Except (List EntityDoc) (List EntityDoc)
  | coll, [] => Except.ok coll
  | coll, d :: rest =>
    if coll.any (fun c => c.mid = d.mid) then Except.error coll
    else insertManyEntities (coll ++ [d]) rest

/-- Steps 2–4, textually identical in `put_mitre_document` and
`insert_mitre_document`: clear and refill the latest-entities cache, set the
current-version pointer, then best-effort Neo4j sync (`gr = true` models
`store_mitre_bundle` raising: the exception is logged and swallowed, the
write still succeeds).  A raised Mongo error carries the state mutated so
far. -/
def refreshAndSync (ef : String → List Int) (ga gr : Bool) (v : String)
    (content : MitreBundle) (s1 : StoreState) : Except (MitreErr × StoreState) StoreState :=
  match insertManyEntities [] (_entity_docs_with_embeddings ef content) with
  | Except.error coll => Except.error (MitreErr.dbError, { s1 with entities := coll })
  | Except.ok es =>
    let s3 := { s1 with entities := es }
    let s4 := { s3 with current := some v }
    let s5 := if gr then s4 else { s4 with graph := store_mitre_bundle ga s4.graph content }
    Except.ok s5

/-- `put_mitre_document(x_mitre_version, content, metadata)`: upsert the
bundle document, then refresh the cache, advance the pointer, and sync the
graph. -/
def put_mitre_document (ef : String → List Int) (ga gr : Bool) (v : String)
    (content : MitreBundle) (metadata : MitreMetadata) (s : StoreState) :
    Except (MitreErr × StoreState) StoreState :=
  let s1 := { s with documents := upsertDoc s.documents v (mkStoredDoc content metadata) }
  refreshAndSync ef ga gr v content s1

/-- `insert_mitre_document(x_mitre_version, content, metadata)`: `insert_one`
raises `DuplicateKeyError` — mapped to `DuplicateVersionError` — when a
document for the version exists, inserting nothing; otherwise the same steps
2–4 follow. -/
def insert_mitre_document (ef : String → List Int) (ga gr : Bool) (v : String)
    (content : MitreBundle) (metadata : MitreMetadata) (s : StoreState) :
    Except (MitreErr × StoreState) StoreState :=
  if s.documents.any (fun p => p.1 = v) then
    Except.error (MitreErr.duplicateVersion, s)
  else
    refreshAndSync ef ga gr v content
      { s with documents := s.documents ++ [(v, mkStoredDoc content metadata)] }

def get_mitre_version (s : StoreState) : Option String := s.current

/-- `get_mitre_content_by_version`: rebuild the typed bundle from the stored
document. -/
def get_mitre_content_by_version (s : StoreState) (v : String) :
    Option (MitreBundle × MitreMetadata) :=
  match lookupDoc s.documents v with
  | none => none
  | some doc =>
    some ({ id := doc.bundle_id, spec_version := doc.spec_version, objects := doc.objects },
          doc.metadata)

/-- `get_mitre_content`: content for the current version. -/
def get_mitre_content (s : StoreState) : Option (MitreBundle × MitreMetadata) :=
  match s.current with
  | none => none
  | some v => get_mitre_content_by_version s v

/-! ### Hybrid search (app/api/search.py) -/

/-- A result document as seen by the merge: the `id` and `_id` fields (both
optional in a raw dict) plus the projected display fields. -/
structure SearchDoc where
  sid : Option String := none
  mid : Option String := none
  name : Option String := none
  description : Option String := none
deriving Repr, DecidableEq

/-- `d.get("id") or d.get("_id")`, with `""` standing for a falsy eid. -/
def docEid (d : SearchDoc) : String :=
  let a := d.sid.getD ""
  if a ≠ "" then a else d.mid.getD ""

/-- One `for` loop of `_merge_vector_and_text`: walk `docs`, appending each
doc whose eid is truthy and unseen; the `Bool` is `true` when the loop hit
`len(merged) >= top_k` and returned early. -/
def mergeFill : List SearchDoc → List String → List SearchDoc → Nat →
    List String × List SearchDoc × Bool
  | [], seen, merged, _ => (seen, merged, false)
  | d :: rest, seen, merged, top_k =>
    if docEid d ≠ "" ∧ docEid d ∉ seen then
      if top_k ≤ (merged ++ [d]).length then (docEid d :: seen, merged ++ [d], true)
      else mergeFill rest (docEid d :: seen) (merged ++ [d]) top_k
    else mergeFill rest seen merged top_k

/-- `_merge_vector_and_text(vector_docs, text_docs, top_k)`: text (literal)
matches first, then vector-only results, up to `top_k`. -/
def _merge_vector_and_text (vector_docs text_docs : List SearchDoc) (top_k : Nat) :
    List SearchDoc :=
  let r1 := mergeFill text_docs [] [] top_k
  if r1.2.2 then r1.2.1
  else (mergeFill vector_docs r1.1 r1.2.1 top_k).2.1

/-- First-occurrence deduplication exactly as the merge loops perform it:
a doc survives when its eid is truthy and unseen. -/
def dedupCode (seen : List String) : List SearchDoc → List SearchDoc
  | [] => []
  | d :: rest =>
    if docEid d ≠ "" ∧ docEid d ∉ seen then d :: dedupCode (docEid d :: seen) rest
    else dedupCode seen rest

/-- Deduplication by entity id as the specification's words describe it
(no truthiness caveat). -/
def dedupByEid (seen : List String) : List SearchDoc → List SearchDoc
  | [] => []
  | d :: rest =>
    if docEid d ∈ seen then dedupByEid seen rest
    else d :: dedupByEid (docEid d :: seen) rest

/-- `mergeResults` as the specification words it: text hits first in their
own order, deduplicated by entity id, then the vector hits whose id was not
already included, truncated to `top_k`. -/
def mergeResultsSpec (textHits vectorHits : List SearchDoc) (top_k : Nat) : List SearchDoc :=
  let t := dedupByEid [] textHits
  (t ++ dedupByEid (t.map docEid) vectorHits).take top_k

/-- Literal prefix test on character lists. -/
def beginsWith : List Char → List Char → Bool
  | [], _ => true
  | _ :: _, [] => false
  | a :: as, b :: bs => a = b && beginsWith as bs

/-- Literal substring test on character lists. -/
def hasInfix (needle : List Char) : List Char → Bool
  | [] => beginsWith needle []
  | c :: rest => beginsWith needle (c :: rest) || hasInfix needle rest

/-- Literal match of the query against an entity's name or description. -/
def textMatches (q : String) (d : EntityDoc) : Bool :=
  hasInfix q.data (d.obj.name.getD "").data || hasInfix q.data (d.obj.description.getD "").data

/-- Modelled from the spec: `search_entities_by_text` is imported by the
search API from app/db/mongo.py but its definition is absent from the
sources; per the spec it is a literal substring/prefix match over entity
name/description in the latest-entities cache, capped at `top_k`. -/
def search_entities_by_text (cache : List EntityDoc) (query : String) (top_k : Nat) :
    List EntityDoc :=
  (cache.filter (textMatches query)).take top_k

/-- Projection of a cache document into a search-result dict (the cache doc
carries both the entity `id` field and `_id`). -/
def entityToSearchDoc (d : EntityDoc) : SearchDoc :=
  { sid := some d.obj.id, mid := some d.mid, name := d.obj.name,
    description := d.obj.description }

/-- `search_entities` endpoint logic: strip the query and reject it with 400
when blank; run the text search; when the query embedding is empty serve the
text hits alone, else merge them ahead of the vector hits.  The query
embedding and the `$vectorSearch` output are parameters (`embedQ`, `vdocs`):
both are produced by external services (the embedding provider and the Atlas
vector index). -/
def search_entities (embedQ : List Int) (vdocs : List SearchDoc)
    (cache : List EntityDoc) (q : String) (top_k : Nat) : Except Nat (List SearchDoc) :=
  let query := pyStrip q
  if query = "" then Except.error 400
  else
    let text_docs := (search_entities_by_text cache query top_k).map entityToSearchDoc
    if embedQ.isEmpty then Except.ok text_docs
    else Except.ok (_merge_vector_and_text vdocs text_docs top_k)

/-! ### Helper lemmas: the merge loops -/

theorem mergeFill_cons_skip (d : SearchDoc) (rest : List SearchDoc) (seen : List String)
    (merged : List SearchDoc) (k : Nat) (h : ¬(docEid d ≠ "" ∧ docEid d ∉ seen)) :
    mergeFill (d :: rest) seen merged k = mergeFill rest seen merged k := by
  simp only [mergeFill]
  rw [if_neg h]

theorem mergeFill_cons_early (d : SearchDoc) (rest : List SearchDoc) (seen : List String)
    (merged : List SearchDoc) (k : Nat) (h : docEid d ≠ "" ∧ docEid d ∉ seen)
    (h2 : k ≤ (merged ++ [d]).length) :
    mergeFill (d :: rest) seen merged k = (docEid d :: seen, merged ++ [d], true) := by
  simp only [mergeFill]
  rw [if_pos h, if_pos h2]

theorem mergeFill_cons_go (d : SearchDoc) (rest : List SearchDoc) (seen : List String)
    (merged : List SearchDoc) (k : Nat) (h : docEid d ≠ "" ∧ docEid d ∉ seen)
    (h2 : ¬ k ≤ (merged ++ [d]).length) :
    mergeFill (d :: rest) seen merged k = mergeFill rest (docEid d :: seen) (merged ++ [d]) k := by
  simp only [mergeFill]
  rw [if_pos h, if_neg h2]

theorem dedupCode_cons_keep (d : SearchDoc) (rest : List SearchDoc) (seen : List String)
    (h : docEid d ≠ "" ∧ docEid d ∉ seen) :
    dedupCode seen (d :: rest) = d :: dedupCode (docEid d :: seen) rest := by
  simp only [dedupCode]
  rw [if_pos h]

theorem dedupCode_cons_drop (d : SearchDoc) (rest : List SearchDoc) (seen : List String)
    (h : ¬(docEid d ≠ "" ∧ docEid d ∉ seen)) :
    dedupCode seen (d :: rest) = dedupCode seen rest := by
  simp only [dedupCode]
  rw [if_neg h]

theorem mergeFill_merged (docs : List SearchDoc) :
    ∀ (seen : List String) (merged : List SearchDoc) (k : Nat), merged.length < k →
      (mergeFill docs seen merged k).2.1 = (merged ++ dedupCode seen docs).take k := by
  induction docs with
  | nil =>
    intro seen merged k hk
    simp [mergeFill, dedupCode, List.take_of_length_le (Nat.le_of_lt hk)]
  | cons d rest ih =>
    intro seen merged k hk
    simp only [mergeFill, dedupCode]
    split_ifs with h h2
    · have h2' : k ≤ merged.length + 1 := by simpa using h2
      show merged ++ [d] = (merged ++ d :: dedupCode (docEid d :: seen) rest).take k
      rw [List.take_append_eq_append_take,
          List.take_of_length_le (by omega : merged.length ≤ k)]
      have hsub : k - merged.length = 1 := by omega
      rw [hsub]
      simp
    · have hlt : (merged ++ [d]).length < k := by
        have h2' : ¬ k ≤ merged.length + 1 := by simpa using h2
        simp only [List.length_append]
        simpa using by omega
      rw [ih _ _ _ hlt]
      simp
    · exact ih seen merged k hk

theorem mergeFill_flag (docs : List SearchDoc) :
    ∀ (seen : List String) (merged : List SearchDoc) (k : Nat), merged.length < k →
      ((mergeFill docs seen merged k).2.2 = true ↔
        k ≤ merged.length + (dedupCode seen docs).length) := by
  induction docs with
  | nil =>
    intro seen merged k hk
    simp only [mergeFill, dedupCode, List.length_nil, Nat.add_zero]
    constructor
    · intro hc; exact absurd hc (by simp)
    · intro hc; omega
  | cons d rest ih =>
    intro seen merged k hk
    by_cases h : docEid d ≠ "" ∧ docEid d ∉ seen
    · by_cases h2 : k ≤ (merged ++ [d]).length
      · have h2' : k ≤ merged.length + 1 := by simpa using h2
        rw [mergeFill_cons_early d rest seen merged k h h2, dedupCode_cons_keep d rest seen h]
        simp only [List.length_cons]
        exact iff_of_true (by trivial) (by omega)
      · have h2' : ¬ k ≤ merged.length + 1 := by simpa using h2
        have hlt : (merged ++ [d]).length < k := by simp; omega
        rw [mergeFill_cons_go d rest seen merged k h h2, dedupCode_cons_keep d rest seen h,
            ih _ _ _ hlt]
        simp only [List.length_append, List.length_cons, List.length_nil]
        omega
    · rw [mergeFill_cons_skip d rest seen merged k h, dedupCode_cons_drop d rest seen h]
      exact ih seen merged k hk

theorem mergeFill_seen (docs : List SearchDoc) :
    ∀ (seen : List String) (merged : List SearchDoc) (k : Nat) (x : String),
      merged.length < k → (mergeFill docs seen merged k).2.2 = false →
      (x ∈ (mergeFill docs seen merged k).1 ↔
        x ∈ seen ∨ x ∈ (dedupCode seen docs).map docEid) := by
  induction docs with
  | nil =>
    intro seen merged k x hk _
    simp [mergeFill, dedupCode]
  | cons d rest ih =>
    intro seen merged k x hk hf
    by_cases h : docEid d ≠ "" ∧ docEid d ∉ seen
    · by_cases h2 : k ≤ (merged ++ [d]).length
      · rw [mergeFill_cons_early d rest seen merged k h h2] at hf
        exact absurd hf (by simp)
      · have h2' : ¬ k ≤ merged.length + 1 := by simpa using h2
        have hlt : (merged ++ [d]).length < k := by simp; omega
        rw [mergeFill_cons_go d rest seen merged k h h2] at hf ⊢
        rw [ih _ _ _ x hlt hf, dedupCode_cons_keep d rest seen h]
        simp only [List.mem_cons, List.map_cons]
        tauto
    · rw [mergeFill_cons_skip d rest seen merged k h] at hf ⊢
      rw [dedupCode_cons_drop d rest seen h]
      exact ih seen merged k x hk hf

theorem dedupCode_congr (docs : List SearchDoc) :
    ∀ (s₁ s₂ : List String), (∀ x, x ∈ s₁ ↔ x ∈ s₂) →
      dedupCode s₁ docs = dedupCode s₂ docs := by
  induction docs with
  | nil => intro _ _ _; rfl
  | cons d rest ih =>
    intro s₁ s₂ hmem
    simp only [dedupCode]
    split_ifs with h1 h2 h2
    · rw [ih (docEid d :: s₁) (docEid d :: s₂)]
      intro x
      simp only [List.mem_cons]
      rw [hmem x]
    · exact absurd ⟨h1.1, fun hc => h1.2 ((hmem _).mpr hc)⟩ h2
    · exact absurd ⟨h2.1, fun hc => h2.2 ((hmem _).mp hc)⟩ h1
    · exact ih s₁ s₂ hmem

/-- Master characterization of `_merge_vector_and_text`: the deduplicated
text hits, then the not-yet-seen vector hits, truncated at `top_k`. -/
theorem merge_eq_take (vector_docs text_docs : List SearchDoc) (k : Nat) (hk : 1 ≤ k) :
    _merge_vector_and_text vector_docs text_docs k =
      (dedupCode [] text_docs ++
        dedupCode ((dedupCode [] text_docs).map docEid) vector_docs).take k := by
  have h0 : ([] : List SearchDoc).length < k := by simpa using hk
  by_cases hf : (mergeFill text_docs [] [] k).2.2 = true
  · have hlen : k ≤ (dedupCode [] text_docs).length := by
      have := (mergeFill_flag text_docs [] [] k h0).mp hf
      simpa using this
    have hm := mergeFill_merged text_docs [] [] k h0
    rw [List.nil_append] at hm
    simp only [_merge_vector_and_text, hf, if_true]
    rw [hm, List.take_append_eq_append_take, Nat.sub_eq_zero_of_le hlen]
    simp
  · have hf' : (mergeFill text_docs [] [] k).2.2 = false := by
      cases hb : (mergeFill text_docs [] [] k).2.2
      · rfl
      · exact absurd hb hf
    have hlen : (dedupCode [] text_docs).length < k := by
      by_contra hc
      exact hf ((mergeFill_flag text_docs [] [] k h0).mpr (by omega))
    have hmerged : (mergeFill text_docs [] [] k).2.1 = dedupCode [] text_docs := by
      rw [mergeFill_merged text_docs [] [] k h0]
      simp [List.take_of_length_le (Nat.le_of_lt hlen)]
    have hmlen : (mergeFill text_docs [] [] k).2.1.length < k := by
      rw [hmerged]; exact hlen
    simp only [_merge_vector_and_text, hf', Bool.false_eq_true, if_false]
    rw [mergeFill_merged vector_docs (mergeFill text_docs [] [] k).1
          ((mergeFill text_docs [] [] k).2.1) k hmlen, hmerged]
    have hseen : dedupCode (mergeFill text_docs [] [] k).1 vector_docs =
        dedupCode ((dedupCode [] text_docs).map docEid) vector_docs := by
      refine dedupCode_congr vector_docs _ _ (fun x => ?_)
      rw [mergeFill_seen text_docs [] [] k x h0 hf']
      simp
    rw [hseen]

theorem dedupCode_eq_dedupByEid (docs : List SearchDoc)
    (hids : ∀ d ∈ docs, docEid d ≠ "") :
    ∀ seen, dedupCode seen docs = dedupByEid seen docs := by
  induction docs with
  | nil => intro _; rfl
  | cons d rest ih =>
    intro seen
    have hd : docEid d ≠ "" := hids d (List.mem_cons_self d rest)
    have hrest : ∀ d' ∈ rest, docEid d' ≠ "" := fun d' hm => hids d' (List.mem_cons_of_mem d hm)
    simp only [dedupCode, dedupByEid]
    split_ifs with h1 h2 h2
    · exact absurd h1.2 (by simpa using h2)
    · rw [ih hrest]
    · exact ih hrest seen
    · exact absurd ⟨hd, h2⟩ h1

/-! ### Helper lemmas: the document store -/

theorem entityDocOf_mid (ef : String → List Int) (o : MitreObject) :
    (entityDocOf ef o).mid = o.id := by
  unfold entityDocOf
  split <;> rfl

theorem entityDocOf_obj (ef : String → List Int) (o : MitreObject) :
    (entityDocOf ef o).obj = o := by
  unfold entityDocOf
  split <;> rfl

theorem entity_docs_mids_aux (ef : String → List Int) :
    ∀ (l : List MitreObject),
      (l.map (entityDocOf ef)).map (fun d => d.mid) = l.map (fun o => o.id) := by
  intro l
  induction l with
  | nil => rfl
  | cons o rest ih => simp only [List.map_cons, entityDocOf_mid, ih]

theorem entity_docs_mids (ef : String → List Int) (b : MitreBundle) :
    (_entity_docs_with_embeddings ef b).map (fun d => d.mid) =
      b.objects.map (fun o => o.id) :=
  entity_docs_mids_aux ef b.objects

theorem lookup_upsert (docs : List (String × StoredDoc)) (v : String) (d : StoredDoc) :
    lookupDoc (upsertDoc docs v d) v = some d := by
  induction docs with
  | nil => simp [upsertDoc, lookupDoc]
  | cons p rest ih =>
    by_cases h : p.1 = v
    · simp [upsertDoc, h, lookupDoc]
    · simp only [upsertDoc, h, if_neg, if_false]
      simp only [lookupDoc, List.find?_cons, decide_eq_true_eq]
      rw [show (decide (p.1 = v)) = false from by simp [h]]
      exact ih

theorem insertMany_ok : ∀ (docs coll : List EntityDoc),
    (∀ d ∈ docs, coll.any (fun c => c.mid = d.mid) = false) →
    ((docs.map (fun d => d.mid)).Nodup) →
    insertManyEntities coll docs = Except.ok (coll ++ docs) := by
  intro docs
  induction docs with
  | nil => intro coll _ _; simp [insertManyEntities]
  | cons d rest ih =>
    intro coll hdisj hnodup
    have hcons : d.mid ∉ rest.map (fun x => x.mid) ∧ (rest.map (fun x => x.mid)).Nodup := by
      rw [List.map_cons, List.nodup_cons] at hnodup
      exact hnodup
    have hd : coll.any (fun c => c.mid = d.mid) = false := hdisj d (List.mem_cons_self d rest)
    simp only [insertManyEntities, hd, Bool.false_eq_true, if_false]
    rw [ih (coll ++ [d]) ?_ hcons.2]
    · simp
    · intro d' hd'
      have h1 : coll.any (fun c => c.mid = d'.mid) = false :=
        hdisj d' (List.mem_cons_of_mem d hd')
      have h2 : ¬ d.mid = d'.mid := by
        intro hc
        exact hcons.1 (hc ▸ List.mem_map_of_mem (fun x => x.mid) hd')
      simp [List.any_append, h1, h2]

theorem refreshAndSync_ok (ef : String → List Int) (ga gr : Bool) (v : String)
    (b : MitreBundle) (s1 : StoreState)
    (hids : (b.objects.map (fun o => o.id)).Nodup) :
    refreshAndSync ef ga gr v b s1 =
      Except.ok { documents := s1.documents,
                  entities := _entity_docs_with_embeddings ef b,
                  current := some v,
                  graph := if gr then s1.graph else store_mitre_bundle ga s1.graph b } := by
  have hnd : ((_entity_docs_with_embeddings ef b).map (fun d => d.mid)).Nodup := by
    rw [entity_docs_mids]; exact hids
  have hins := insertMany_ok (_entity_docs_with_embeddings ef b) []
    (by intro d _; rfl) hnd
  simp only [refreshAndSync, hins, List.nil_append]
  cases gr <;> rfl

theorem put_ok (ef : String → List Int) (ga gr : Bool) (v : String)
    (b : MitreBundle) (m : MitreMetadata) (s : StoreState)
    (hids : (b.objects.map (fun o => o.id)).Nodup) :
    put_mitre_document ef ga gr v b m s =
      Except.ok { documents := upsertDoc s.documents v (mkStoredDoc b m),
                  entities := _entity_docs_with_embeddings ef b,
                  current := some v,
                  graph := if gr then s.graph else store_mitre_bundle ga s.graph b } := by
  unfold put_mitre_document
  rw [refreshAndSync_ok ef ga gr v b _ hids]

theorem insert_ok (ef : String → List Int) (ga gr : Bool) (v : String)
    (b : MitreBundle) (m : MitreMetadata) (s : StoreState)
    (hfresh : s.documents.any (fun p => p.1 = v) = false)
    (hids : (b.objects.map (fun o => o.id)).Nodup) :
    insert_mitre_document ef ga gr v b m s =
      Except.ok { documents := s.documents ++ [(v, mkStoredDoc b m)],
                  entities := _entity_docs_with_embeddings ef b,
                  current := some v,
                  graph := if gr then s.graph else store_mitre_bundle ga s.graph b } := by
  unfold insert_mitre_document
  rw [if_neg (by simp [hfresh])]
  rw [refreshAndSync_ok ef ga gr v b _ hids]

theorem insert_dup (ef : String → List Int) (ga gr : Bool) (v : String)
    (b : MitreBundle) (m : MitreMetadata) (s : StoreState)
    (hdup : s.documents.any (fun p => p.1 = v) = true) :
    insert_mitre_document ef ga gr v b m s =
      Except.error (MitreErr.duplicateVersion, s) := by
  unfold insert_mitre_document
  rw [if_pos hdup]

theorem entityDocOf_embedding (ef : String → List Int) (o : MitreObject) :
    ((entityDocOf ef o).embedding.isSome = true) ↔
      (pyStrip (o.name.getD "") ≠ "" ∨ pyStrip (o.description.getD "") ≠ "") := by
  unfold entityDocOf _name_description_text
  by_cases hn : pyStrip (o.name.getD "") = "" <;>
    by_cases hd : pyStrip (o.description.getD "") = "" <;>
      simp [hn, hd]

/-! ### Helper lemmas: the graph projection -/

/-- The edge `_create_relationship` builds for a relationship object that
passes all the guards of `store_mitre_bundle`. -/
def mkEdgeOf (r : MitreObject) : GraphEdge :=
  { source := r.source_ref.getD "", target := r.target_ref.getD "",
    relType := replaceChar ' ' '_' (_relationship_type_to_neo4j (r.relationship_type.getD "")),
    stix_id := r.id }

theorem relStep_nodes (ids : List String) (g : GraphState) (r : MitreObject) :
    (relStep ids g r).nodes = g.nodes := by
  simp only [relStep, _create_relationship]
  split_ifs <;> rfl

theorem relStep_edges_mono (ids : List String) (g : GraphState) (r : MitreObject)
    (e : GraphEdge) (he : e ∈ g.edges) : e ∈ (relStep ids g r).edges := by
  simp only [relStep, _create_relationship]
  split_ifs <;> simp [he]

theorem relStep_sound (ids : List String) (g : GraphState) (r : MitreObject)
    (e : GraphEdge) (he : e ∈ (relStep ids g r).edges) :
    e ∈ g.edges ∨
      (r.source_ref.getD "" ≠ "" ∧ r.target_ref.getD "" ≠ "" ∧
        r.relationship_type.getD "" ≠ "" ∧
        r.source_ref.getD "" ∈ ids ∧ r.target_ref.getD "" ∈ ids ∧ e = mkEdgeOf r) := by
  simp only [relStep, _create_relationship] at he
  split_ifs at he with h1 h2 h3
  · exact Or.inl he
  · push_neg at h1
    simp only [List.mem_append, List.mem_singleton] at he
    rcases he with he | he
    · exact Or.inl he
    · exact Or.inr ⟨h1.1, h1.2.1, h1.2.2, h2.1, h2.2, he⟩
  · exact Or.inl he
  · exact Or.inl he

theorem relFold_nodes (ids : List String) :
    ∀ (rels : List MitreObject) (g : GraphState),
      (rels.foldl (relStep ids) g).nodes = g.nodes := by
  intro rels
  induction rels with
  | nil => intro g; rfl
  | cons r rest ih =>
    intro g
    rw [List.foldl_cons, ih, relStep_nodes]

theorem relFold_edges_mono (ids : List String) :
    ∀ (rels : List MitreObject) (g : GraphState) (e : GraphEdge),
      e ∈ g.edges → e ∈ (rels.foldl (relStep ids) g).edges := by
  intro rels
  induction rels with
  | nil => intro g e he; exact he
  | cons r rest ih =>
    intro g e he
    rw [List.foldl_cons]
    exact ih _ e (relStep_edges_mono ids g r e he)

theorem relFold_sound (ids : List String) :
    ∀ (rels : List MitreObject) (g : GraphState) (e : GraphEdge),
      e ∈ (rels.foldl (relStep ids) g).edges →
      e ∈ g.edges ∨
        ∃ r ∈ rels,
          r.source_ref.getD "" ≠ "" ∧ r.target_ref.getD "" ≠ "" ∧
          r.relationship_type.getD "" ≠ "" ∧
          r.source_ref.getD "" ∈ ids ∧ r.target_ref.getD "" ∈ ids ∧ e = mkEdgeOf r := by
  intro rels
  induction rels with
  | nil => intro g e he; exact Or.inl he
  | cons r rest ih =>
    intro g e he
    rw [List.foldl_cons] at he
    rcases ih _ e he with hstep | ⟨r', hr', hconds⟩
    · rcases relStep_sound ids g r e hstep with hg | hconds
      · exact Or.inl hg
      · exact Or.inr ⟨r, List.mem_cons_self r rest, hconds⟩
    · exact Or.inr ⟨r', List.mem_cons_of_mem r hr', hconds⟩

theorem relFold_complete (ids : List String) :
    ∀ (rels : List MitreObject) (g : GraphState) (r : MitreObject),
      r ∈ rels →
      r.source_ref.getD "" ≠ "" → r.target_ref.getD "" ≠ "" →
      r.relationship_type.getD "" ≠ "" →
      r.source_ref.getD "" ∈ ids → r.target_ref.getD "" ∈ ids →
      g.nodes.any (fun n => n.stix_id = r.source_ref.getD "") = true →
      g.nodes.any (fun n => n.stix_id = r.target_ref.getD "") = true →
      mkEdgeOf r ∈ (rels.foldl (relStep ids) g).edges := by
  intro rels
  induction rels with
  | nil => intro g r hmem; exact absurd hmem (List.not_mem_nil r)
  | cons r' rest ih =>
    intro g r hmem hsrc htgt hrt hsi hti hsn htn
    rw [List.foldl_cons]
    rcases List.mem_cons.mp hmem with heq | hmem'
    · subst heq
      have hstep : mkEdgeOf r ∈ (relStep ids g r).edges := by
        simp only [relStep, _create_relationship]
        rw [if_neg (by tauto), if_pos ⟨hsi, hti⟩, if_pos ⟨hsn, htn⟩]
        simp [mkEdgeOf]
      exact relFold_edges_mono ids rest _ _ hstep
    · exact ih (relStep ids g r') r hmem' hsrc htgt hrt hsi hti
        (by rw [relStep_nodes]; exact hsn) (by rw [relStep_nodes]; exact htn)

theorem create_node_edges (g : GraphState) (label sid : String) :
    (_create_node g label sid).edges = g.edges := by
  unfold _create_node
  split_ifs <;> rfl

theorem create_node_mono (g : GraphState) (label sid : String) (n : GraphNode)
    (hn : n ∈ g.nodes) : n ∈ (_create_node g label sid).nodes := by
  unfold _create_node
  split_ifs <;> simp [hn]

theorem create_node_exists (g : GraphState) (label sid : String) :
    ∃ n ∈ (_create_node g label sid).nodes, n.stix_id = sid := by
  unfold _create_node
  split_ifs with h
  · simp only [List.any_eq_true, decide_eq_true_eq] at h
    obtain ⟨n, hn, hcond⟩ := h
    exact ⟨n, hn, hcond.1⟩
  · exact ⟨{ label := label, stix_id := sid }, by simp, rfl⟩

theorem nodesFold_edges :
    ∀ (objs : List MitreObject) (g : GraphState),
      (objs.foldl (fun acc o => _create_node acc (_stix_type_to_label o.type) o.id) g).edges =
        g.edges := by
  intro objs
  induction objs with
  | nil => intro g; rfl
  | cons o rest ih =>
    intro g
    rw [List.foldl_cons, ih, create_node_edges]

theorem nodesFold_mono :
    ∀ (objs : List MitreObject) (g : GraphState) (n : GraphNode),
      n ∈ g.nodes →
      n ∈ (objs.foldl (fun acc o => _create_node acc (_stix_type_to_label o.type) o.id) g).nodes := by
  intro objs
  induction objs with
  | nil => intro g n hn; exact hn
  | cons o rest ih =>
    intro g n hn
    rw [List.foldl_cons]
    exact ih _ n (create_node_mono g _ _ n hn)

theorem nodesFold_exists :
    ∀ (objs : List MitreObject) (g : GraphState) (o : MitreObject),
      o ∈ objs →
      ∃ n ∈ (objs.foldl (fun acc o => _create_node acc (_stix_type_to_label o.type) o.id) g).nodes,
        n.stix_id = o.id := by
  intro objs
  induction objs with
  | nil => intro g o hmem; exact absurd hmem (List.not_mem_nil o)
  | cons o' rest ih =>
    intro g o hmem
    rw [List.foldl_cons]
    rcases List.mem_cons.mp hmem with heq | hmem'
    · subst heq
      obtain ⟨n, hn, hsid⟩ := create_node_exists g (_stix_type_to_label o.type) o.id
      exact ⟨n, nodesFold_mono rest _ n hn, hsid⟩
    · exact ih _ o hmem'

/-- `store_mitre_bundle` with the driver available, spelled out. -/
theorem store_avail (g : GraphState) (b : MitreBundle) :
    store_mitre_bundle true g b =
      (b.objects.filter (fun o => o.type = "relationship")).foldl
        (relStep (b.objects.map (fun o => o.id)))
        ((b.objects.filter (fun o => o.type ≠ "relationship")).foldl
          (fun acc o => _create_node acc (_stix_type_to_label o.type) o.id)
          { nodes := [], edges := [] }) := rfl

theorem store_unavailable (g : GraphState) (b : MitreBundle) :
    store_mitre_bundle false g b = g := rfl

theorem store_edges_sound (g : GraphState) (b : MitreBundle) (e : GraphEdge)
    (he : e ∈ (store_mitre_bundle true g b).edges) :
    ∃ r ∈ b.objects, r.type = "relationship" ∧
      r.source_ref.getD "" ≠ "" ∧ r.target_ref.getD "" ≠ "" ∧
      r.relationship_type.getD "" ≠ "" ∧
      r.source_ref.getD "" ∈ b.objects.map (fun o => o.id) ∧
      r.target_ref.getD "" ∈ b.objects.map (fun o => o.id) ∧
      e = mkEdgeOf r := by
  rw [store_avail] at he
  rcases relFold_sound _ _ _ _ he with hbase | ⟨r, hr, hconds⟩
  · rw [nodesFold_edges] at hbase
    exact absurd hbase (List.not_mem_nil e)
  · have hmf := List.mem_filter.mp hr
    exact ⟨r, hmf.1, by simpa using hmf.2, hconds⟩

theorem store_edges_complete (g : GraphState) (b : MitreBundle) (r : MitreObject)
    (hr : r ∈ b.objects) (hrel : r.type = "relationship")
    (hsrc : r.source_ref.getD "" ≠ "") (htgt : r.target_ref.getD "" ≠ "")
    (hrt : r.relationship_type.getD "" ≠ "")
    (hsn : ∃ o ∈ b.objects, o.type ≠ "relationship" ∧ o.id = r.source_ref.getD "")
    (htn : ∃ o ∈ b.objects, o.type ≠ "relationship" ∧ o.id = r.target_ref.getD "") :
    mkEdgeOf r ∈ (store_mitre_bundle true g b).edges := by
  rw [store_avail]
  obtain ⟨os, hos, hosrel, hosid⟩ := hsn
  obtain ⟨ot, hot, hotrel, hotid⟩ := htn
  have hosf : os ∈ b.objects.filter (fun o => o.type ≠ "relationship") :=
    List.mem_filter.mpr ⟨hos, by simpa using hosrel⟩
  have hotf : ot ∈ b.objects.filter (fun o => o.type ≠ "relationship") :=
    List.mem_filter.mpr ⟨hot, by simpa using hotrel⟩
  obtain ⟨ns, hnsmem, hnsid⟩ := nodesFold_exists _ { nodes := [], edges := [] } os hosf
  obtain ⟨nt, hntmem, hntid⟩ := nodesFold_exists _ { nodes := [], edges := [] } ot hotf
  refine relFold_complete _ _ _ r
    (List.mem_filter.mpr ⟨hr, by simpa using hrel⟩) hsrc htgt hrt
    (hosid ▸ List.mem_map_of_mem (fun o => o.id) hos)
    (hotid ▸ List.mem_map_of_mem (fun o => o.id) hot) ?_ ?_
  · exact List.any_eq_true.mpr ⟨ns, hnsmem, by simp [hnsid, hosid]⟩
  · exact List.any_eq_true.mpr ⟨nt, hntmem, by simp [hntid, hotid]⟩

/-! ### Concrete fixtures for witnesses and counterexamples -/

def docA : SearchDoc := { sid := some "A" }

def docB : SearchDoc := { sid := some "B" }

def docC : SearchDoc := { sid := some "C" }

def docD : SearchDoc := { sid := some "D" }

def objA : MitreObject := { type := "attack-pattern", id := "a", name := some "Phishing" }

def objB : MitreObject := { type := "course-of-action", id := "b", name := some "Training" }

def relAB : MitreObject :=
  { type := "relationship", id := "r1", source_ref := some "a", target_ref := some "b",
    relationship_type := some "mitigates" }

def relNoType : MitreObject :=
  { type := "relationship", id := "r0", source_ref := some "a", target_ref := some "b",
    relationship_type := none }

def relToRel : MitreObject :=
  { type := "relationship", id := "r2", source_ref := some "r1", target_ref := some "b",
    relationship_type := some "uses" }

def relDangling : MitreObject :=
  { type := "relationship", id := "r3", source_ref := some "zzz", target_ref := some "b",
    relationship_type := some "uses" }

def efOne : String → List Int := fun _ => [1]

def bundle1 : MitreBundle := { spec_version := "2.1", objects := [objA, objB, relAB] }

def bundle2 : MitreBundle := { spec_version := "2.1", objects := [objA, objB] }

def bundleNoType : MitreBundle := { spec_version := "2.1", objects := [objA, objB, relNoType] }

def bundleRelToRel : MitreBundle :=
  { spec_version := "2.1", objects := [objA, objB, relAB, relToRel] }

def bundleDangling : MitreBundle :=
  { spec_version := "2.1", objects := [objA, objB, relDangling] }

def md1 : MitreMetadata :=
  { x_mitre_version := "5.0", last_modified := "2024-01-01T00:00:00Z", size := 100 }

def md2 : MitreMetadata :=
  { x_mitre_version := "5.0", last_modified := "2024-02-01T00:00:00Z", size := 120 }

def emptyGraph : GraphState := { nodes := [], edges := [] }

def emptyStore : StoreState :=
  { documents := [], entities := [], current := none, graph := emptyGraph }

def storeWith50 : StoreState :=
  { documents := [("5.0", mkStoredDoc bundle1 md1)],
    entities := _entity_docs_with_embeddings efOne bundle1,
    current := some "5.0",
    graph := store_mitre_bundle true emptyGraph bundle1 }

def storeCurrent10 : StoreState :=
  { documents := [("1.0", mkStoredDoc bundle2 md1)],
    entities := [], current := some "1.0", graph := emptyGraph }

def graphWithA : GraphState := store_mitre_bundle true emptyGraph bundle2

/-! ### Claim theorems -/

/-- C1: for every list of text hits, every list of vector hits, and every
`top_k ≥ 1` (all hits carrying an entity id), the merge returns at most
`top_k` results in which the text hits come first in their original order,
deduplicated by entity id, followed by the vector hits whose entity id was
not already included, in their original order. -/
theorem merge_text_first_dedup (text_docs vector_docs : List SearchDoc) (k : Nat)
    (hk : 1 ≤ k) (hids : ∀ d ∈ text_docs ++ vector_docs, docEid d ≠ "") :
    _merge_vector_and_text vector_docs text_docs k = mergeResultsSpec text_docs vector_docs k ∧
    (_merge_vector_and_text vector_docs text_docs k).length ≤ k := by
  have htext : ∀ d ∈ text_docs, docEid d ≠ "" :=
    fun d hd => hids d (List.mem_append_left _ hd)
  have hvec : ∀ d ∈ vector_docs, docEid d ≠ "" :=
    fun d hd => hids d (List.mem_append_right _ hd)
  have hm := merge_eq_take vector_docs text_docs k hk
  constructor
  · rw [hm]
    simp only [mergeResultsSpec]
    rw [dedupCode_eq_dedupByEid text_docs htext, dedupCode_eq_dedupByEid vector_docs hvec]
  · rw [hm, List.length_take]
    exact min_le_left _ _

/-- C1 witness: the specification's own example — text hits `[A, B]`, vector
hits `[B, C, D]`, `top_k = 3` — yields `[A, B, C]`. -/
theorem merge_text_first_dedup_witness :
    (1 ≤ 3) ∧
    (_merge_vector_and_text [docB, docC, docD] [docA, docB] 3 =
        mergeResultsSpec [docA, docB] [docB, docC, docD] 3 ∧
      (_merge_vector_and_text [docB, docC, docD] [docA, docB] 3).length ≤ 3) ∧
    _merge_vector_and_text [docB, docC, docD] [docA, docB] 3 = [docA, docB, docC] :=
  ⟨by decide,
   merge_text_first_dedup [docA, docB] [docB, docC, docD] 3 (by decide) (by decide),
   by decide⟩

/-- C2: creating a bundle under a version that already has a stored document
fails with DuplicateVersion — not a generic store error — while a subsequent
replace of that version succeeds and reading content for it returns the new
bundle. -/
theorem duplicate_create_then_replace (ef : String → List Int) (ga gr : Bool)
    (v : String) (b b2 : MitreBundle) (m m2 : MitreMetadata) (s : StoreState)
    (hdup : s.documents.any (fun p => p.1 = v) = true)
    (hids2 : (b2.objects.map (fun o => o.id)).Nodup) :
    insert_mitre_document ef ga gr v b m s = Except.error (MitreErr.duplicateVersion, s) ∧
    ∃ s', put_mitre_document ef ga gr v b2 m2 s = Except.ok s' ∧
      get_mitre_content_by_version s' v = some (b2, m2) := by
  refine ⟨insert_dup ef ga gr v b m s hdup, ?_⟩
  refine ⟨_, put_ok ef ga gr v b2 m2 s hids2, ?_⟩
  simp only [get_mitre_content_by_version, lookup_upsert]
  rfl

/-- C2 witness: with "5.0" already stored, create fails with
DuplicateVersion, then replace succeeds and getContent returns the new
bundle. -/
theorem duplicate_create_then_replace_witness :
    insert_mitre_document efOne true false "5.0" bundle1 md1 storeWith50 =
      Except.error (MitreErr.duplicateVersion, storeWith50) ∧
    ∃ s', put_mitre_document efOne true false "5.0" bundle2 md2 storeWith50 = Except.ok s' ∧
      get_mitre_content_by_version s' "5.0" = some (bundle2, md2) :=
  duplicate_create_then_replace efOne true false "5.0" bundle1 bundle2 md1 md2 storeWith50
    (by decide) (by decide)

/-- C3: a successful replace of the bundle stored under `v` sets the
current-version pointer to `v` unconditionally, for every prior state — in
particular when the pointer named a different version before the call. -/
theorem replace_advances_pointer (ef : String → List Int) (ga gr : Bool)
    (v : String) (b : MitreBundle) (m : MitreMetadata) (s : StoreState)
    (hids : (b.objects.map (fun o => o.id)).Nodup) :
    ∃ s', put_mitre_document ef ga gr v b m s = Except.ok s' ∧ s'.current = some v :=
  ⟨_, put_ok ef ga gr v b m s hids, rfl⟩

/-- C3 witness: replacing version "5.0" while the pointer names "1.0" moves
the pointer to "5.0". -/
theorem replace_advances_pointer_witness :
    storeCurrent10.current ≠ some "5.0" ∧
    ∃ s', put_mitre_document efOne true false "5.0" bundle2 md2 storeCurrent10 =
        Except.ok s' ∧ s'.current = some "5.0" :=
  ⟨by decide,
   replace_advances_pointer efOne true false "5.0" bundle2 md2 storeCurrent10 (by decide)⟩

/-- C4: after every successful write — replace, or create of a fresh
version — the latest-entities cache holds exactly one document per entity of
the incoming bundle, in bundle order, keyed by the entity's id, with all
previous contents removed; and a cache document carries an embedding field
iff the entity's name or description is non-empty after trimming. -/
theorem cache_rebuilt_per_write (ef : String → List Int) (ga gr : Bool)
    (v : String) (b : MitreBundle) (m : MitreMetadata) (s : StoreState)
    (hids : (b.objects.map (fun o => o.id)).Nodup) :
    (∃ s', put_mitre_document ef ga gr v b m s = Except.ok s' ∧
      s'.entities = b.objects.map (entityDocOf ef)) ∧
    (s.documents.any (fun p => p.1 = v) = false →
      ∃ s', insert_mitre_document ef ga gr v b m s = Except.ok s' ∧
        s'.entities = b.objects.map (entityDocOf ef)) ∧
    (∀ o : MitreObject, (entityDocOf ef o).mid = o.id ∧ (entityDocOf ef o).obj = o ∧
      ((entityDocOf ef o).embedding.isSome = true ↔
        (pyStrip (o.name.getD "") ≠ "" ∨ pyStrip (o.description.getD "") ≠ ""))) := by
  refine ⟨⟨_, put_ok ef ga gr v b m s hids, rfl⟩, ?_, ?_⟩
  · intro hfresh
    exact ⟨_, insert_ok ef ga gr v b m s hfresh hids, rfl⟩
  · intro o
    exact ⟨entityDocOf_mid ef o, entityDocOf_obj ef o, entityDocOf_embedding ef o⟩

/-- C4 witness: writing `bundle1` (a named technique, a named mitigation and
a relationship with no name or description) rebuilds the cache to exactly
its three entities, with embeddings exactly on the two named ones. -/
theorem cache_rebuilt_per_write_witness :
    ((∃ s', put_mitre_document efOne true false "5.0" bundle1 md1 storeCurrent10 =
        Except.ok s' ∧
        s'.entities = bundle1.objects.map (entityDocOf efOne)) ∧
      (storeCurrent10.documents.any (fun p => p.1 = "5.0") = false →
        ∃ s', insert_mitre_document efOne true false "5.0" bundle1 md1 storeCurrent10 =
          Except.ok s' ∧
          s'.entities = bundle1.objects.map (entityDocOf efOne)) ∧
      (∀ o : MitreObject, (entityDocOf efOne o).mid = o.id ∧ (entityDocOf efOne o).obj = o ∧
        ((entityDocOf efOne o).embedding.isSome = true ↔
          (pyStrip (o.name.getD "") ≠ "" ∨ pyStrip (o.description.getD "") ≠ "")))) ∧
    ((entityDocOf efOne objA).embedding.isSome = true ∧
      (entityDocOf efOne relAB).embedding.isSome = false) :=
  ⟨cache_rebuilt_per_write efOne true false "5.0" bundle1 md1 storeCurrent10 (by decide),
   by decide⟩

/-- C5: a relationship whose source_ref (or target_ref) matches the id of no
entity in the bundle is materialized as no graph edge, the write does not
fail, and the relationship itself is still stored and appears in getContent
for that version. -/
theorem dangling_relationship_dropped (ef : String → List Int) (v : String)
    (b : MitreBundle) (m : MitreMetadata) (s : StoreState) (r : MitreObject)
    (hids : (b.objects.map (fun o => o.id)).Nodup)
    (hr : r ∈ b.objects) (hrel : r.type = "relationship")
    (hdangle : (∀ o ∈ b.objects, some o.id ≠ r.source_ref) ∨
               (∀ o ∈ b.objects, some o.id ≠ r.target_ref)) :
    ∃ s', put_mitre_document ef true false v b m s = Except.ok s' ∧
      (∀ e ∈ s'.graph.edges, e.stix_id ≠ r.id) ∧
      (∃ bc mc, get_mitre_content_by_version s' v = some (bc, mc) ∧ r ∈ bc.objects) := by
  refine ⟨_, put_ok ef true false v b m s hids, ?_, ?_⟩
  · intro e he hid
    have he' : e ∈ (store_mitre_bundle true s.graph b).edges := by simpa using he
    obtain ⟨r', hr', _, hsrc', htgt', _, hsi', hti', heq⟩ :=
      store_edges_sound s.graph b e he'
    have hrid : r'.id = r.id := by
      rw [heq] at hid
      simpa [mkEdgeOf] using hid
    have hrr : r' = r := List.inj_on_of_nodup_map hids hr' hr hrid
    subst hrr
    rcases hdangle with hS | hT
    · obtain ⟨o, ho, hoid⟩ := List.mem_map.mp hsi'
      have hsome : r'.source_ref = some (r'.source_ref.getD "") := by
        cases hso : r'.source_ref with
        | none => rw [hso] at hsrc'; simp at hsrc'
        | some x => simp [hso]
      exact hS o ho (by rw [hsome, hoid])
    · obtain ⟨o, ho, hoid⟩ := List.mem_map.mp hti'
      have hsome : r'.target_ref = some (r'.target_ref.getD "") := by
        cases hto : r'.target_ref with
        | none => rw [hto] at htgt'; simp at htgt'
        | some x => simp [hto]
      exact hT o ho (by rw [hsome, hoid])
  · refine ⟨b, m, ?_, hr⟩
    simp only [get_mitre_content_by_version, lookup_upsert]
    rfl

/-- C5 witness: `bundleDangling` has a relationship whose source_ref "zzz"
matches no entity id; the write succeeds, no edge carries its id, and it is
still returned by getContent. -/
theorem dangling_relationship_dropped_witness :
    ∃ s', put_mitre_document efOne true false "5.0" bundleDangling md1 emptyStore =
        Except.ok s' ∧
      (∀ e ∈ s'.graph.edges, e.stix_id ≠ relDangling.id) ∧
      (∃ bc mc, get_mitre_content_by_version s' "5.0" = some (bc, mc) ∧
        relDangling ∈ bc.objects) :=
  dangling_relationship_dropped efOne "5.0" bundleDangling md1 emptyStore relDangling
    (by decide) (by decide) (by decide) (Or.inl (by decide))

/-- C6 counterexample: in `bundleNoType` the relationship r0 has both
endpoints present in the bundle but `relationship_type` missing — the claim
predicts a RELATED_TO edge, yet the rebuilt graph has no edges at all; and
in `bundleRelToRel` the relationship r2 references entity r1 (itself a
relationship) present in the bundle, yet only r1's own edge exists. -/
theorem edge_type_fallback_counterexample :
    (store_mitre_bundle true emptyGraph bundleNoType).edges = [] ∧
    (store_mitre_bundle true emptyGraph bundleRelToRel).edges =
      [{ source := "a", target := "b", relType := "MITIGATES", stix_id := "r1" }] := by
  constructor
  · decide
  · decide

/-- C6 (amended): a relationship whose source_ref and target_ref are
non-empty ids of non-relationship entities present in the bundle and whose
relationship_type is non-empty yields a directed edge typed by the
uppercased, hyphens-and-spaces-to-underscores form of relationship_type and
carrying the relationship's id; a relationship with empty or missing
relationship_type yields no edge (every edge of the rebuilt graph stems from
a relationship with non-empty relationship_type — the RELATED_TO fallback is
unreachable). -/
theorem edge_typing_normalized (g : GraphState) (b : MitreBundle) :
    (∀ r ∈ b.objects, r.type = "relationship" →
      r.source_ref.getD "" ≠ "" → r.target_ref.getD "" ≠ "" →
      r.relationship_type.getD "" ≠ "" →
      (∃ o ∈ b.objects, o.type ≠ "relationship" ∧ o.id = r.source_ref.getD "") →
      (∃ o ∈ b.objects, o.type ≠ "relationship" ∧ o.id = r.target_ref.getD "") →
      ({ source := r.source_ref.getD "", target := r.target_ref.getD "",
         relType := replaceChar ' ' '_' (replaceChar '-' '_' (strUpper (r.relationship_type.getD ""))),
         stix_id := r.id } : GraphEdge) ∈ (store_mitre_bundle true g b).edges) ∧
    (∀ e ∈ (store_mitre_bundle true g b).edges,
      ∃ r ∈ b.objects, r.type = "relationship" ∧ r.relationship_type.getD "" ≠ "" ∧
        e.stix_id = r.id ∧
        e.relType =
          replaceChar ' ' '_' (replaceChar '-' '_' (strUpper (r.relationship_type.getD "")))) := by
  constructor
  · intro r hr hrel hsrc htgt hrt hsn htn
    have hmem := store_edges_complete g b r hr hrel hsrc htgt hrt hsn htn
    simpa [mkEdgeOf, _relationship_type_to_neo4j, hrt] using hmem
  · intro e he
    obtain ⟨r, hr, hrel, _, _, hrt, _, _, heq⟩ := store_edges_sound g b e he
    refine ⟨r, hr, hrel, hrt, ?_, ?_⟩
    · rw [heq]; rfl
    · rw [heq]; simp [mkEdgeOf, _relationship_type_to_neo4j, hrt]

/-- C6 witness: `relAB` ("mitigates", both endpoints non-relationship
entities of `bundle1`) yields a MITIGATES edge a → b carrying r1. -/
theorem edge_typing_normalized_witness :
    ({ source := "a", target := "b", relType := "MITIGATES", stix_id := "r1" } : GraphEdge) ∈
      (store_mitre_bundle true emptyGraph bundle1).edges :=
  (edge_typing_normalized emptyGraph bundle1).1 relAB (by decide) (by decide) (by decide)
    (by decide) (by decide) (by decide) (by decide)

/-- C7: for every bundle write, if the graph backend is unreachable
(`ga = false`) or the graph rebuild raises (`gr = true`), the
document-store write still completes successfully with the same
document-store contents, the failure is never surfaced to the writer, and
the graph sync degrades to a no-op leaving the graph untouched. -/
theorem graph_failure_swallowed (ef : String → List Int) (ga gr : Bool)
    (v : String) (b : MitreBundle) (m : MitreMetadata) (s : StoreState)
    (hids : (b.objects.map (fun o => o.id)).Nodup) :
    (∃ s', put_mitre_document ef ga gr v b m s = Except.ok s' ∧
      s'.documents = upsertDoc s.documents v (mkStoredDoc b m) ∧
      s'.entities = _entity_docs_with_embeddings ef b ∧
      s'.current = some v ∧
      ((ga = false ∨ gr = true) → s'.graph = s.graph)) ∧
    (s.documents.any (fun p => p.1 = v) = false →
      ∃ s', insert_mitre_document ef ga gr v b m s = Except.ok s' ∧
        s'.documents = s.documents ++ [(v, mkStoredDoc b m)] ∧
        s'.entities = _entity_docs_with_embeddings ef b ∧
        s'.current = some v ∧
        ((ga = false ∨ gr = true) → s'.graph = s.graph)) := by
  constructor
  · refine ⟨_, put_ok ef ga gr v b m s hids, rfl, rfl, rfl, ?_⟩
    rintro (h | h)
    · subst h
      cases gr
      · show store_mitre_bundle false s.graph b = s.graph
        exact store_unavailable s.graph b
      · rfl
    · subst h; rfl
  · intro hfresh
    refine ⟨_, insert_ok ef ga gr v b m s hfresh hids, rfl, rfl, rfl, ?_⟩
    rintro (h | h)
    · subst h
      cases gr
      · show store_mitre_bundle false s.graph b = s.graph
        exact store_unavailable s.graph b
      · rfl
    · subst h; rfl

/-- C7 witness: with the graph backend unreachable, replacing "5.0" (and
creating it, which is fresh in `storeCurrent10`) still succeeds, with the
graph untouched. -/
theorem graph_failure_swallowed_witness :
    (∃ s', put_mitre_document efOne false false "5.0" bundle1 md1 storeCurrent10 =
        Except.ok s' ∧
      s'.documents = upsertDoc storeCurrent10.documents "5.0" (mkStoredDoc bundle1 md1) ∧
      s'.entities = _entity_docs_with_embeddings efOne bundle1 ∧
      s'.current = some "5.0" ∧
      ((false = false ∨ false = true) → s'.graph = storeCurrent10.graph)) ∧
    (storeCurrent10.documents.any (fun p => p.1 = "5.0") = false →
      ∃ s', insert_mitre_document efOne false false "5.0" bundle1 md1 storeCurrent10 =
          Except.ok s' ∧
        s'.documents = storeCurrent10.documents ++ [("5.0", mkStoredDoc bundle1 md1)] ∧
        s'.entities = _entity_docs_with_embeddings efOne bundle1 ∧
        s'.current = some "5.0" ∧
        ((false = false ∨ false = true) → s'.graph = storeCurrent10.graph)) :=
  graph_failure_swallowed efOne false false "5.0" bundle1 md1 storeCurrent10 (by decide)

/-- C8 (amended): with the backend available, getAdjacent is absent exactly
when no node carries the requested id; with the backend unreachable it
returns the very same absent result, and the endpoint maps both situations
to the same 404 — unavailability is NOT distinguishable from not-found. -/
theorem adjacent_absent_semantics (g : GraphState) (sid : String) :
    (get_adjacent true g sid = none ↔ (∀ n ∈ g.nodes, n.stix_id ≠ sid)) ∧
    get_adjacent false g sid = none ∧
    get_adjacent_endpoint false g sid = Except.error 404 ∧
    ((∀ n ∈ g.nodes, n.stix_id ≠ sid) →
      get_adjacent_endpoint true g sid = Except.error 404) := by
  have hiff : get_adjacent true g sid = none ↔ (∀ n ∈ g.nodes, n.stix_id ≠ sid) := by
    unfold get_adjacent
    rw [if_neg (by simp)]
    cases hf : g.nodes.find? (fun n => n.stix_id = sid) with
    | none =>
      have hnone := List.find?_eq_none.mp hf
      exact iff_of_true rfl (fun n hn => by simpa using hnone n hn)
    | some c =>
      have hp := List.find?_some hf
      have hmem := List.mem_of_find?_eq_some hf
      refine iff_of_false (by simp) ?_
      intro hall
      exact hall c hmem (by simpa using hp)
  refine ⟨hiff, rfl, rfl, fun h => ?_⟩
  unfold get_adjacent_endpoint
  rw [hiff.mpr h]

/-- C8 witness: in a graph holding only nodes "a" and "b", looking up the
nonexistent id "zzz" through the endpoint yields 404. -/
theorem adjacent_absent_semantics_witness :
    get_adjacent_endpoint true graphWithA "zzz" = Except.error 404 :=
  (adjacent_absent_semantics graphWithA "zzz").2.2.2 (by decide)

/-- C8 counterexample: node "a" exists in the graph, yet with the backend
unreachable getAdjacent returns the same `none` — and the endpoint the same
404 — as an available-backend lookup of a nonexistent node: absence does not
coincide with non-existence and no distinguishable "unavailable" result
exists. -/
theorem adjacent_absent_counterexample :
    (∃ n ∈ graphWithA.nodes, n.stix_id = "a") ∧
    get_adjacent false graphWithA "a" = none ∧
    get_adjacent_endpoint false graphWithA "a" = get_adjacent_endpoint true graphWithA "zzz" :=
  ⟨by decide, rfl, rfl⟩

/-- C9: for every query that is non-blank after stripping (and whose
embedding is non-empty), the text pass of search is a literal substring
match over entity name/description of the latest-entities cache, returns at
most `top_k` hits, and the endpoint merges those text hits ahead of the
vector hits. -/
theorem text_search_literal_capped (embedQ : List Int) (vdocs : List SearchDoc)
    (cache : List EntityDoc) (q : String) (k : Nat)
    (hq : pyStrip q ≠ "") (hk : 1 ≤ k) (hemb : embedQ.isEmpty = false) :
    ((search_entities_by_text cache (pyStrip q) k).length ≤ k) ∧
    (∀ d ∈ search_entities_by_text cache (pyStrip q) k,
      d ∈ cache ∧ textMatches (pyStrip q) d = true) ∧
    search_entities embedQ vdocs cache q k =
      Except.ok
        ((dedupCode [] ((search_entities_by_text cache (pyStrip q) k).map entityToSearchDoc) ++
          dedupCode
            ((dedupCode [] ((search_entities_by_text cache (pyStrip q) k).map
              entityToSearchDoc)).map docEid)
            vdocs).take k) := by
  refine ⟨?_, ?_, ?_⟩
  · unfold search_entities_by_text
    rw [List.length_take]
    exact min_le_left _ _
  · intro d hd
    unfold search_entities_by_text at hd
    have hmem := List.mem_of_mem_take hd
    exact ⟨(List.mem_filter.mp hmem).1, (List.mem_filter.mp hmem).2⟩
  · simp only [search_entities]
    rw [if_neg hq, if_neg (by simp [hemb])]
    rw [merge_eq_take vdocs _ k hk]

/-- C9 witness: query "Phish" over the cache of `bundle2` literally matches
the entity named "Phishing"; the merged endpoint answer puts it ahead of
the vector hit B. -/
theorem text_search_literal_capped_witness :
    (((search_entities_by_text (_entity_docs_with_embeddings efOne bundle2)
        (pyStrip "Phish") 2).length ≤ 2) ∧
      (∀ d ∈ search_entities_by_text (_entity_docs_with_embeddings efOne bundle2)
          (pyStrip "Phish") 2,
        d ∈ _entity_docs_with_embeddings efOne bundle2 ∧
          textMatches (pyStrip "Phish") d = true) ∧
      search_entities [1] [docB] (_entity_docs_with_embeddings efOne bundle2) "Phish" 2 =
        Except.ok
          ((dedupCode []
              ((search_entities_by_text (_entity_docs_with_embeddings efOne bundle2)
                (pyStrip "Phish") 2).map entityToSearchDoc) ++
            dedupCode
              ((dedupCode []
                ((search_entities_by_text (_entity_docs_with_embeddings efOne bundle2)
                  (pyStrip "Phish") 2).map entityToSearchDoc)).map docEid)
              [docB]).take 2)) ∧
    search_entities [1] [docB] (_entity_docs_with_embeddings efOne bundle2) "Phish" 2 =
      Except.ok [entityToSearchDoc (entityDocOf efOne objA), docB] :=
  ⟨text_search_literal_capped [1] [docB] (_entity_docs_with_embeddings efOne bundle2)
      "Phish" 2 (by decide) (by decide) (by decide),
   rfl⟩

/-- C10: a create that fails with DuplicateVersion mutates no store state —
the raised error carries exactly the pre-call state (stored documents,
latest-entities cache, current pointer and graph all unchanged), the
duplicate-key failure happening before any cache, pointer or graph step. -/
theorem duplicate_create_state_unchanged (ef : String → List Int) (ga gr : Bool)
    (v : String) (b : MitreBundle) (m : MitreMetadata) (s : StoreState)
    (hdup : s.documents.any (fun p => p.1 = v) = true) :
    insert_mitre_document ef ga gr v b m s = Except.error (MitreErr.duplicateVersion, s) :=
  insert_dup ef ga gr v b m s hdup

/-- C10 witness: creating "5.0" over a store that already holds "5.0" fails
with DuplicateVersion and the error carries exactly the pre-call state. -/
theorem duplicate_create_state_unchanged_witness :
    storeWith50.documents.any (fun p => p.1 = "5.0") = true ∧
    insert_mitre_document efOne true false "5.0" bundle2 md2 storeWith50 =
      Except.error (MitreErr.duplicateVersion, storeWith50) :=
  ⟨by decide,
   duplicate_create_state_unchanged efOne true false "5.0" bundle2 md2 storeWith50 (by decide)⟩

end MitreAttack
